import Mathlib

/-
Verification development for the prospect lead-prospecting tool.

The JavaScript sources are embedded shallowly:
- JS objects used as string-keyed maps become association lists
  (List (String × _)) in insertion order; assignment to an existing key
  keeps its position and overwrites the value, assignment to a fresh key
  appends, matching JS object key-enumeration order.
- Buffer.from(url).toString(base64) becomes an explicit UTF-8 encoder
  followed by an explicit base64 encoder over byte lists (bytes as Nat).
- Timestamps (Date.now()) are Nat parameters threaded explicitly.
- Math.floor((w / total) * maxTerms) is modeled as exact rational floor,
  i.e. Nat division w * maxTerms / total.
- toFixed(2) on the exact rational 100 * s / t is modeled as the number of
  hundredths, rounded half up.
-/

-- ==================== JS object as association list ====================

def objGet {α : Type} (m : List (String × α)) (k : String) : Option α :=
  (m.find? (fun q => decide (q.1 = k))).map (fun q => q.2)

def objHasKey {α : Type} (m : List (String × α)) (k : String) : Bool :=
  m.any (fun q => decide (q.1 = k))

def objAssign {α : Type} (m : List (String × α)) (k : String) (v : α) :
    List (String × α) :=
  if objHasKey m k then m.map (fun q => if q.1 = k then (k, v) else q)
  else m ++ [(k, v)]

-- ==================== UTF-8 and base64 (Buffer.toString) ====================

def utf8Bytes (c : Char) : List Nat :=
  let n := c.toNat
  if n < 128 then [n]
  else if n < 2048 then [192 + n / 64, 128 + n % 64]
  else if n < 65536 then [224 + n / 4096, 128 + (n / 64) % 64, 128 + n % 64]
  else [240 + n / 262144, 128 + (n / 4096) % 64, 128 + (n / 64) % 64, 128 + n % 64]

def strBytes (s : String) : List Nat :=
  s.data.flatMap utf8Bytes

def b64Char (n : Nat) : Char :=
  "ABCDEFGHIJKLMNOPQRSTUVWXYZabcdefghijklmnopqrstuvwxyz0123456789+/".data.getD n 'A'

def b64Encode : List Nat → List Char
  | b0 :: b1 :: b2 :: rest =>
      b64Char (b0 / 4) :: b64Char ((b0 % 4) * 16 + b1 / 16) ::
      b64Char ((b1 % 16) * 4 + b2 / 64) :: b64Char (b2 % 64) :: b64Encode rest
  | [b0, b1] =>
      [b64Char (b0 / 4), b64Char ((b0 % 4) * 16 + b1 / 16), b64Char ((b1 % 16) * 4), '=']
  | [b0] =>
      [b64Char (b0 / 4), b64Char ((b0 % 4) * 16), '=', '=']
  | [] => []

def base64 (s : String) : String :=
  String.mk (b64Encode (strBytes s))

-- JS String.includes: sub occurs as a contiguous substring of l.
def containsSub (sub : List Char) : List Char → Bool
  | [] => sub.isPrefixOf []
  | c :: rest => sub.isPrefixOf (c :: rest) || containsSub sub rest

def strContains (s sub : String) : Bool :=
  containsSub sub.data s.data

-- JS String.startsWith.
def strStartsWith (s pre : String) : Bool :=
  pre.data.isPrefixOf s.data

-- Number of hundredths in ((num / den) * 100).toFixed(2), on exact rationals.
def jsToFixed2 (num den : Nat) : Nat :=
  (20000 * num + den) / (2 * den)

-- Stable sort modeling Array.prototype.sort: a stable sort with respect to a
-- total preorder comparison is unique, so structural insertion sort computes
-- the same list the engine does.
def insertBy {α : Type} (le : α → α → Bool) (x : α) : List α → List α
  | [] => [x]
  | y :: ys => if le x y then x :: y :: ys else y :: insertBy le x ys

def sortBy {α : Type} (le : α → α → Bool) : List α → List α
  | [] => []
  | x :: xs => insertBy le x (sortBy le xs)

-- ==================== LearningStore (src/api/ai.js, src/unnamed/part_000) ====================

structure LearnEvent where
  term : String
  neighborhood : String
  businessType : String
  strategy : String
  companiesFound : Option Nat
  timestamp : Nat
deriving DecidableEq

structure LearningData where
  successfulSearches : List LearnEvent
  failedSearches : List LearnEvent
  bestNeighborhoods : List (String × Nat)
  bestBusinessTypes : List (String × Nat)
  bestStrategies : List (String × Nat)
  totalSearches : Nat
  successRate : Nat
deriving DecidableEq

def emptyLearning : LearningData :=
  { successfulSearches := []
    failedSearches := []
    bestNeighborhoods := []
    bestBusinessTypes := []
    bestStrategies := []
    totalSearches := 0
    successRate := 0 }

-- m[k] = (m[k] || 0) + v
def bumpScore (m : List (String × Nat)) (k : String) (v : Nat) : List (String × Nat) :=
  objAssign m k ((objGet m k).getD 0 + v)

-- updateLearning (ai.js lines 247-286, part_000 lines 149-188)
def updateLearning (ld : LearningData) (searchTerm neighborhood businessType strategy : String)
    (foundCompanies : Nat) (now : Nat) : LearningData :=
  let total := ld.totalSearches + 1
  if foundCompanies > 0 then
    let succ := ld.successfulSearches ++
      [{ term := searchTerm, neighborhood := neighborhood, businessType := businessType,
         strategy := strategy, companiesFound := some foundCompanies, timestamp := now }]
    { successfulSearches := succ
      failedSearches := ld.failedSearches
      bestNeighborhoods := bumpScore ld.bestNeighborhoods neighborhood foundCompanies
      bestBusinessTypes := bumpScore ld.bestBusinessTypes businessType foundCompanies
      bestStrategies := bumpScore ld.bestStrategies strategy foundCompanies
      totalSearches := total
      successRate := jsToFixed2 succ.length total }
  else
    { successfulSearches := ld.successfulSearches
      failedSearches := ld.failedSearches ++
        [{ term := searchTerm, neighborhood := neighborhood, businessType := businessType,
           strategy := strategy, companiesFound := none, timestamp := now }]
      bestNeighborhoods := ld.bestNeighborhoods
      bestBusinessTypes := ld.bestBusinessTypes
      bestStrategies := ld.bestStrategies
      totalSearches := total
      successRate := jsToFixed2 ld.successfulSearches.length total }

-- ==================== TermGenerator (generateSmartSearchTerms) ====================
-- ai.js lines 289-436 and part_000 lines 191-300 (identical logic).

namespace Ai

def FORTALEZA_NEIGHBORHOODS : List String :=
  ["Aldeota", "Meireles", "Mucuripe", "Varjota", "Papicu", "Praia de Iracema",
   "Cocó", "Luciano Cavalcante", "Dionísio Torres", "Joaquim Távora",
   "Centro", "Benfica", "Fátima", "Parquelândia", "Rodolfo Teófilo",
   "Messejana", "Cambeba", "Cidade dos Funcionários", "Edson Queiroz",
   "Passaré", "Lagoa Redonda", "Sapiranga", "José de Alencar",
   "Parangaba", "Montese", "Maraponga", "Antônio Bezerra", "Bom Jardim",
   "Cajazeiras", "Vila Pery", "Serrinha", "Mondubim", "Itaperi",
   "Dunas", "Salinas", "Sabiaguaba", "Água Fria", "Jangurussu",
   "Ancuri", "Pedras", "Guajeru", "Coaçu"]

def BUSINESS_TYPES : List String :=
  ["restaurante", "lanchonete", "pizzaria", "hamburgueria", "açaiteria",
   "padaria", "cafeteria", "bar", "petiscos", "delivery",
   "advogado", "escritório advocacia", "dentista", "clínica odontológica",
   "médico", "clínica médica", "psicólogo", "nutricionista",
   "salão beleza", "barbearia", "estética", "manicure", "depilação",
   "clínica estética", "spa",
   "academia", "personal trainer", "crossfit", "pilates", "yoga",
   "fisioterapia", "quiropraxia",
   "pet shop", "veterinário", "banho e tosa", "hotel para pets",
   "mecânica", "auto center", "lava jato", "auto elétrica", "borracharia",
   "loja roupas", "boutique", "moda feminina", "moda masculina",
   "calçados", "acessórios", "joalheria",
   "farmácia", "drogaria", "manipulação",
   "construtora", "engenharia", "reformas", "pinturas", "marcenaria",
   "vidraçaria", "serralheria",
   "contabilidade", "consultoria", "imobiliária", "corretor imóveis",
   "despachante", "advocacia empresarial",
   "escola", "curso", "reforço escolar", "idiomas", "pré-vestibular",
   "assistência técnica", "informática", "eletrônica",
   "fotografia", "decoração", "design interiores", "móveis planejados",
   "floricultura", "chaveiro", "lavanderia"]

-- Object.entries(m).sort((a, b) => b[1] - a[1]).map(([name]) => name)
-- Array.prototype.sort is stable; mergeSort with this comparison is too.
def sortedByScoreDesc (m : List (String × Nat)) : List String :=
  (sortBy (fun a b => decide (b.2 ≤ a.2)) m).map (fun p => p.1)

def priorityNeighborhoods (ld : LearningData) : List String :=
  let sorted := sortedByScoreDesc ld.bestNeighborhoods
  sorted.take 15 ++ (FORTALEZA_NEIGHBORHOODS.filter (fun n => !(sorted.contains n))).take 15

def priorityBusinessTypes (ld : LearningData) : List String :=
  let sorted := sortedByScoreDesc ld.bestBusinessTypes
  sorted.take 20 ++ (BUSINESS_TYPES.filter (fun b => !(sorted.contains b))).take 20

def priorityStrategies (ld : LearningData) : List String :=
  let sorted := sortedByScoreDesc ld.bestStrategies
  if sorted.length > 0 then
    sorted.take 3 ++ ["gmaps_local", "social_media", "new_business", "direct_web"]
  else
    ["gmaps_local", "social_media", "new_business", "direct_web"]

-- priorityStrategies.forEach((strategy, index) =>
--   strategyWeights[strategy] = Math.max(1, 4 - index))
-- A duplicated strategy name keeps its first-occurrence position in the object
-- but its value is overwritten by the assignment at the later index.
def strategyWeightList (ps : List String) : List (String × Nat) :=
  ps.enum.foldl (fun m q => objAssign m q.2 (max 1 (4 - q.1))) []

def totalWeight (ws : List (String × Nat)) : Nat :=
  (ws.map (fun p => p.2)).sum

structure SearchTask where
  term : String
  neighborhood : String
  businessType : String
  platform : String
  strategy : String
deriving DecidableEq

def newModifiers : List String :=
  ["inauguração", "novo", "nova", "acabou de abrir", "recém inaugurado"]

def mkTask (pn pb : List String) (strategy : String) (i : Nat) : SearchTask :=
  let neighborhood := pn.getD (i % pn.length) ""
  let business := pb.getD (i % pb.length) ""
  let term :=
    if strategy = "gmaps_local" then
      business ++ " " ++ neighborhood ++ " fortaleza maps"
    else if strategy = "social_media" then
      business ++ " " ++ neighborhood ++ " site:instagram.com"
    else if strategy = "new_business" then
      business ++ " " ++ newModifiers.getD (i % newModifiers.length) "" ++ " " ++
        neighborhood ++ " fortaleza"
    else if strategy = "direct_web" then
      business ++ " " ++ neighborhood ++ " fortaleza -olx -mercadolivre"
    else
      business ++ " " ++ neighborhood ++ " fortaleza"
  { term := term
    neighborhood := neighborhood
    businessType := business
    platform := if strategy = "gmaps_local" then "google_maps" else "google"
    strategy := strategy }

-- Math.floor((weight / totalWeight) * maxTerms), exact rational floor.
def allocOf (weight total maxTerms : Nat) : Nat :=
  weight * maxTerms / total

-- One iteration of: for (const [strategy, weight] of Object.entries(strategyWeights)),
-- with the inner loop for (i = 0; i < strategyCount && termsGenerated < maxTerms; i++).
def genStep (pn pb : List String) (maxTerms total : Nat)
    (acc : List SearchTask × Nat) (p : String × Nat) : List SearchTask × Nat :=
  let cnt := allocOf p.2 total maxTerms
  if cnt = 0 then acc
  else
    let k := min cnt (maxTerms - acc.2)
    (acc.1 ++ (List.range k).map (mkTask pn pb p.1), acc.2 + k)

def generateSmartSearchTerms (ld : LearningData) (maxTerms : Nat) : List SearchTask :=
  let pn := priorityNeighborhoods ld
  let pb := priorityBusinessTypes ld
  let ws := strategyWeightList (priorityStrategies ld)
  let total := totalWeight ws
  (ws.foldl (genStep pn pb maxTerms total) ([], 0)).1

-- Keep the first occurrence of every name, in order (JS object key order).
def dedupFirst (l : List String) : List String :=
  l.foldl (fun acc x => if x ∈ acc then acc else acc ++ [x]) []

-- Index of the last occurrence of s in l (meaningful when s is in l).
def lastIdxOf (l : List String) (s : String) : Nat :=
  l.length - 1 - List.indexOf s l.reverse

-- The weight table as the spec sentence describes it: deduplicate the priority
-- list keeping first occurrences, then weight max(1, 4 - i) by position i in
-- that deduplicated list.  Used only to compare against strategyWeightList.
def specStrategyWeights (ps : List String) : List (String × Nat) :=
  (dedupFirst ps).enum.map (fun q => (q.2, max 1 (4 - q.1)))

end Ai

-- ==================== Validator heuristic stage ====================
-- isCompanyWebsite, src/unnamed/part_000 lines 376-443.  The DOM probes are
-- modeled as the boolean signals they produce on the loaded page.

structure PageSignals where
  contact : Bool
  services : Bool
  location : Bool
  whatsapp : Bool
  pricing : Bool
  news : Bool
  directory : Bool
  social : Bool
  marketplace : Bool
deriving DecidableEq

def posCount (s : PageSignals) : Nat :=
  ([s.contact, s.services, s.location, s.whatsapp, s.pricing].filter (fun b => b)).length

def negCount (s : PageSignals) : Nat :=
  ([s.news, s.directory, s.social, s.marketplace].filter (fun b => b)).length

-- score = positives - negatives * 2
def signalScore (s : PageSignals) : Int :=
  (posCount s : Int) - 2 * (negCount s : Int)

inductive HeuristicOutcome
  | accept
  | reject
  | consultModel
deriving DecidableEq

def heuristicStage (s : PageSignals) : HeuristicOutcome :=
  if s.news || s.directory || s.social || s.marketplace then .reject
  else if signalScore s ≥ 3 then .accept
  else if signalScore s ≤ 1 then .reject
  else .consultModel

-- ==================== Scraper extraction ====================
-- page.evaluate block of searchGoogle, src/unnamed/part_000 lines 660-727.
-- An anchor is modeled by its href, its resolved title (link text, else the
-- nearest heading ancestor) and the nearest snippet text.

structure Anchor where
  href : String
  resolvedTitle : String
  snippet : String
deriving DecidableEq

def blockedDomains : List String :=
  ["google.com", "youtube.com", "wikipedia.org", "facebook.com", "instagram.com",
   "linkedin.com", "googleusercontent.com", "translate.google.com", "maps.google.com",
   "books.google.com", "news.google.com"]

def linkAllowed (a : Anchor) : Bool :=
  strStartsWith a.href "http" && blockedDomains.all (fun d => !(strContains a.href d))

structure RawResult where
  title : String
  url : String
  description : String
deriving DecidableEq

-- for (i = 0; i < min(allLinks.length, 8); i++) push titles longer than 3
-- characters; break once 6 results are collected.
def extractPageResults (anchors : List Anchor) : List RawResult :=
  ((((anchors.filter linkAllowed).take 8).filter
      (fun a => decide (a.resolvedTitle.length > 3))).take 6).map
    (fun a => { title := a.resolvedTitle, url := a.href, description := a.snippet })

-- ==================== Records and cache (src/api/storage.js) ====================

-- One duck-typed record shape covering company records and search completion
-- records (both live in companies.json); absent JS fields are defaults.
structure CompanyRec where
  title : String := ""
  url : String := ""
  description : String := ""
  searchTerm : String := ""
  neighborhood : String := ""
  businessType : String := ""
  foundAt : Option Nat := none
  completedAt : Option Nat := none
  resultsCount : Option Nat := none
  savedAt : Option Nat := none
deriving DecidableEq

structure SearchData where
  results : List CompanyRec
  timestamp : Nat
deriving DecidableEq

structure CacheEntry (α : Type) where
  data : α
  timestamp : Nat
deriving DecidableEq

def SEARCH_CACHE_TTL : Nat := 24 * 60 * 60 * 1000

def ANALYSIS_CACHE_TTL : Nat := 7 * 24 * 60 * 60 * 1000

-- if (cached && (Date.now() - cached.timestamp) < ttl) return cached.data
def cacheGet {α : Type} (table : List (String × CacheEntry α)) (key : String)
    (now ttl : Nat) : Option α :=
  match objGet table key with
  | some e => if now - e.timestamp < ttl then some e.data else none
  | none => none

-- entries.sort((a, b) => b[1].timestamp - a[1].timestamp): newest first,
-- ties kept in insertion order (Array.prototype.sort is stable).
def byTimestampDesc {α : Type} (a b : String × CacheEntry α) : Bool :=
  decide (b.2.timestamp ≤ a.2.timestamp)

-- if the table exceeds its capacity keep the cap most recent by timestamp.
def pruneOldest {α : Type} (inserted : List (String × CacheEntry α)) (cap : Nat) :
    List (String × CacheEntry α) :=
  if inserted.length > cap then (sortBy byTimestampDesc inserted).take cap
  else inserted

-- insert or overwrite, then prune.
def cacheSet {α : Type} (table : List (String × CacheEntry α)) (key : String)
    (d : α) (now cap : Nat) : List (String × CacheEntry α) :=
  pruneOldest (objAssign table key { data := d, timestamp := now }) cap

structure CacheState where
  searchResults : List (String × CacheEntry SearchData)
  companyAnalyses : List (String × CacheEntry String)
deriving DecidableEq

def emptyCache : CacheState :=
  { searchResults := [], companyAnalyses := [] }

def getCachedSearchResult (c : CacheState) (searchTerm : String) (now : Nat) :
    Option SearchData :=
  cacheGet c.searchResults searchTerm now SEARCH_CACHE_TTL

def setCachedSearchResult (c : CacheState) (searchTerm : String) (d : SearchData)
    (now : Nat) : CacheState :=
  { c with searchResults := cacheSet c.searchResults searchTerm d now 1000 }

def getCachedCompanyAnalysis (c : CacheState) (companyId : String) (now : Nat) :
    Option String :=
  cacheGet c.companyAnalyses companyId now ANALYSIS_CACHE_TTL

def setCachedCompanyAnalysis (c : CacheState) (companyId : String) (d : String)
    (now : Nat) : CacheState :=
  { c with companyAnalyses := cacheSet c.companyAnalyses companyId d now 500 }

-- ==================== Persistence keys (src/api/search.js) ====================

-- company:${Buffer.from(result.url).toString(base64).substring(0, 50)}
def companyKey (url : String) : String :=
  "company:" ++ (base64 url).take 50

-- search:${Buffer.from(searchTerm).toString(base64)}
def searchKey (searchTerm : String) : String :=
  "search:" ++ base64 searchTerm

-- ==================== Orchestrator (handler, src/api/search.js) ====================
-- Sequential branch of the POST handler, lines 100-551.  The browser session
-- (puppeteer navigation, page.evaluate extraction and the in-page validation
-- of lines 385-450) is an external effect; the handler model receives the raw
-- results that stage would yield and reports whether it was consulted.

namespace SearchApi

structure StatsData where
  totalSearches : Nat
  totalResults : Nat
  neighborhoods : List (String × Nat)
  businesses : List (String × Nat)
deriving DecidableEq

structure Storage where
  companies : List (String × CompanyRec)
  stats : StatsData
  learning : LearningData
  cache : CacheState
deriving DecidableEq

def emptyStats : StatsData :=
  { totalSearches := 0, totalResults := 0, neighborhoods := [], businesses := [] }

-- storage.saveCompany: companies[key] = eqv of ...data plus savedAt
def saveCompany (st : Storage) (key : String) (rec : CompanyRec) (now : Nat) : Storage :=
  { st with companies := objAssign st.companies key { rec with savedAt := some now } }

-- storage.getCompaniesBySearchTerm via the searchTerm index: every stored
-- record whose (truthy) searchTerm field equals the term, in insertion order.
-- The completion record itself carries the searchTerm field, so it is indexed
-- and returned too.
def getCompaniesBySearchTerm (st : Storage) (term : String) : List CompanyRec :=
  (st.companies.filter
    (fun p => decide (p.2.searchTerm = term ∧ p.2.searchTerm ≠ ""))).map (fun p => p.2)

def NEIGHBORHOODS : List String :=
  ["Aldeota", "Meireles", "Mucuripe", "Varjota", "Papicu",
   "Centro", "Benfica", "Messejana", "Parangaba"]

def BUSINESS_TYPES : List String :=
  ["restaurante", "advogado", "dentista", "salão beleza",
   "academia", "pet shop", "mecânica", "loja roupas"]

def neighborhoodOf (idx : Nat) : String :=
  NEIGHBORHOODS.getD (idx % NEIGHBORHOODS.length) ""

def businessOf (idx : Nat) : String :=
  BUSINESS_TYPES.getD ((idx / NEIGHBORHOODS.length) % BUSINESS_TYPES.length) ""

def searchTermOf (idx : Nat) : String :=
  businessOf idx ++ " " ++ neighborhoodOf idx ++ " fortaleza"

inductive HandlerOutcome
  | cachedHit
  | skipped
  | scraped
deriving DecidableEq

structure HandlerResult where
  outcome : HandlerOutcome
  resultsFound : Nat
  results : List CompanyRec
  usedBrowser : Bool
  state : Storage
deriving DecidableEq

-- incrementStat(totalResults, n); incrementNeighborhoodHits; incrementBusinessHits
def incResultStats (s : StatsData) (nb b : String) (n : Nat) : StatsData :=
  { s with totalResults := s.totalResults + n
           neighborhoods := bumpScore s.neighborhoods nb n
           businesses := bumpScore s.businesses b n }

-- results.filter of lines 463-470
def validResultFilter (r : RawResult) : Bool :=
  decide (r.url ≠ "") &&
  !(strContains r.url "google.com") &&
  !(strContains r.url "youtube.com") &&
  !(strContains r.url "facebook.com") &&
  !(strContains r.url "wikipedia.org") &&
  (decide (r.description.length > 5) || decide (r.title.length > 3))

def companyRecOfRaw (r : RawResult) (term nb b : String) (now : Nat) : CompanyRec :=
  { title := r.title, url := r.url, description := r.description,
    searchTerm := term, neighborhood := nb, businessType := b, foundAt := some now }

def rawAsResponseRec (r : RawResult) : CompanyRec :=
  { title := r.title, url := r.url, description := r.description }

-- Lines 462-540: filter, persist, mark complete, cache, stats, learning.
def scrapePath (st : Storage) (term nb b : String) (now : Nat)
    (browserResults : List RawResult) : HandlerResult :=
  let validResults := browserResults.filter validResultFilter
  if validResults.length > 0 then
    let st1 := validResults.foldl
      (fun s r => saveCompany s (companyKey r.url) (companyRecOfRaw r term nb b now) now) st
    let st2 := saveCompany st1 (searchKey term)
      { searchTerm := term, neighborhood := nb, businessType := b,
        completedAt := some now, resultsCount := some validResults.length } now
    let st3 := { st2 with cache := (setCachedSearchResult st2.cache term ⟨validResults.map rawAsResponseRec, now⟩ now) }
    let stats1 : StatsData := { st3.stats with totalSearches := st3.stats.totalSearches + 1 }
    let st4 := { st3 with stats := (incResultStats stats1 nb b validResults.length) }
    let st5 := { st4 with learning := (updateLearning st4.learning term nb b "google_search" validResults.length now) }
    { outcome := .scraped, resultsFound := validResults.length,
      results := validResults.map rawAsResponseRec, usedBrowser := true, state := st5 }
  else
    let st1 := saveCompany st (searchKey term)
      { searchTerm := term, neighborhood := nb, businessType := b,
        completedAt := some now, resultsCount := some 0 } now
    let st2 := { st1 with cache := (setCachedSearchResult st1.cache term ⟨[], now⟩ now) }
    let st3 := { st2 with learning := (updateLearning st2.learning term nb b "google_search" 0 now) }
    { outcome := .scraped, resultsFound := 0, results := [],
      usedBrowser := true, state := st3 }

-- JS truthiness of an optional timestamp field.
def truthyTime (o : Option Nat) : Bool :=
  decide (o.getD 0 ≠ 0)

def handler (st : Storage) (searchIndex : Nat) (now : Nat)
    (browserResults : List RawResult) : HandlerResult :=
  let term := searchTermOf searchIndex
  let nb := neighborhoodOf searchIndex
  let b := businessOf searchIndex
  match getCachedSearchResult st.cache term now with
  | some cached =>
      let st1 := { st with stats := incResultStats st.stats nb b cached.results.length }
      { outcome := .cachedHit, resultsFound := cached.results.length,
        results := cached.results, usedBrowser := false, state := st1 }
  | none =>
      match objGet st.companies (searchKey term) with
      | some existing =>
          if truthyTime existing.completedAt then
            let relatedResults := getCompaniesBySearchTerm st term
            let st1 := { st with cache := (setCachedSearchResult st.cache term ⟨relatedResults, now⟩ now) }
            let st2 := { st1 with stats := (incResultStats st1.stats nb b relatedResults.length) }
            { outcome := .skipped, resultsFound := relatedResults.length,
              results := relatedResults, usedBrowser := false, state := st2 }
          else scrapePath st term nb b now browserResults
      | none => scrapePath st term nb b now browserResults

end SearchApi

-- ==================== Durable save traces (saveLearningData) ====================
-- part_000 lines 139-147 writes a .tmp file and renames it over the durable
-- file; storage.js lines 235-243 writes the durable file in place.  A write
-- interrupted by a crash can leave any prefix of its content; a rename is
-- all-or-nothing.

inductive FsOp
  | write (path content : String)
  | rename (src dst : String)

abbrev FileSys := List (String × String)

def fsSet (fs : FileSys) (p c : String) : FileSys := objAssign fs p c

def fsGet (fs : FileSys) (p : String) : Option String := objGet fs p

def fsDel (fs : FileSys) (p : String) : FileSys :=
  fs.filter (fun q => decide (q.1 ≠ p))

def applyOp (fs : FileSys) : FsOp → FileSys
  | .write p c => fsSet fs p c
  | .rename src dst =>
      match fsGet fs src with
      | some c => fsSet (fsDel fs src) dst c
      | none => fs

-- States observable if the process crashes before or during one operation.
def opCrashStates (fs : FileSys) : FsOp → List FileSys
  | .write p c => fs :: (List.range (c.length + 1)).map (fun k => fsSet fs p (String.mk (c.data.take k)))
  | .rename src dst => [fs, applyOp fs (.rename src dst)]

def crashStates (fs : FileSys) : List FsOp → List FileSys
  | [] => [fs]
  | op :: rest => opCrashStates fs op ++ crashStates (applyOp fs op) rest

-- saveLearningData, part_000: write file.tmp, then rename over file.
def agentSaveTrace (file content : String) : List FsOp :=
  [.write (file ++ ".tmp") content, .rename (file ++ ".tmp") file]

-- saveLearningData, storage.js: fs.writeFileSync(file, content) directly.
def apiSaveTrace (file content : String) : List FsOp :=
  [.write file content]

-- Every crash leaves the durable file whole: old snapshot or new snapshot.
def saveAtomic (fs0 : FileSys) (trace : List FsOp) (file content : String) : Prop :=
  ∀ fs ∈ crashStates fs0 trace, fsGet fs file = fsGet fs0 file ∨ fsGet fs file = some content

-- ==================== Concrete states used in closed statements ====================

-- Learning snapshot whose only ranked strategy is also one of the canonical four.
def ld1 : LearningData :=
  { emptyLearning with bestStrategies := [("gmaps_local", 5)] }

-- Two distinct 38-byte URLs agreeing on their first 37 bytes only: the 38th
-- byte differs in its top four bits, which still land inside the first 50
-- base64 characters.
def u1c : String := "AAAAAAAAAAAAAAAAAAAAAAAAAAAAAAAAAAAAA0"

def u2c : String := "AAAAAAAAAAAAAAAAAAAAAAAAAAAAAAAAAAAAAz"

-- Two distinct URLs agreeing on their first 38 bytes: their keys collide.
def u3c : String := "AAAAAAAAAAAAAAAAAAAAAAAAAAAAAAAAAAAAAAB"

def u4c : String := "AAAAAAAAAAAAAAAAAAAAAAAAAAAAAAAAAAAAAAC"

-- Storage holding only the completion record of the index-0 search term.
def st0 : SearchApi.Storage :=
  { companies := [(searchKey (SearchApi.searchTermOf 0),
      { searchTerm := SearchApi.searchTermOf 0, neighborhood := "Aldeota",
        businessType := "restaurante", completedAt := some 1000,
        resultsCount := some 0, savedAt := some 1000 })]
    stats := SearchApi.emptyStats
    learning := emptyLearning
    cache := emptyCache }

-- ==================== Association-list lemmas ====================

theorem objHasKey_iff {α : Type} (m : List (String × α)) (k : String) :
    objHasKey m k = true ↔ k ∈ m.map Prod.fst := by
  induction m with
  | nil => simp [objHasKey]
  | cons p rest ih =>
      simp only [objHasKey, List.any_cons, Bool.or_eq_true, decide_eq_true_eq,
        List.map_cons, List.mem_cons] at ih ⊢
      constructor
      · rintro (h | h)
        · exact Or.inl h.symm
        · exact Or.inr (ih.mp h)
      · rintro (h | h)
        · exact Or.inl h.symm
        · exact Or.inr (ih.mpr h)

theorem find_map_assign {α : Type} (k : String) (v : α) :
    ∀ m : List (String × α),
      (m.map (fun q => if q.1 = k then (k, v) else q)).find? (fun q => decide (q.1 = k)) =
        if objHasKey m k then some (k, v) else none := by
  intro m
  induction m with
  | nil => simp [objHasKey]
  | cons p rest ih =>
      simp only [List.map_cons, List.find?_cons]
      by_cases hp : p.1 = k
      · simp [hp, objHasKey]
      · have hd : decide (p.1 = k) = false := decide_eq_false hp
        rw [if_neg hp]
        simp only [hd, objHasKey, List.any_cons, Bool.false_or]
        simpa only [objHasKey] using ih

theorem find_map_assign_ne {α : Type} (k k' : String) (v : α) (hne : k' ≠ k) :
    ∀ m : List (String × α),
      (m.map (fun q => if q.1 = k then (k, v) else q)).find? (fun q => decide (q.1 = k')) =
        (m.find? (fun q => decide (q.1 = k'))).map (fun q => if q.1 = k then (k, v) else q) := by
  intro m
  induction m with
  | nil => simp
  | cons p rest ih =>
      simp only [List.map_cons, List.find?_cons]
      by_cases hp : p.1 = k
      · have hk' : ¬ ((k : String) = k') := fun h => hne h.symm
        simp [hp, hk', ih]
      · by_cases hp' : p.1 = k'
        · simp [hp, hp', hne]
        · simp [hp, hp', ih]

theorem objAssign_of_has {α : Type} {m : List (String × α)} {k : String} (v : α)
    (h : objHasKey m k = true) :
    objAssign m k v = m.map (fun q => if q.1 = k then (k, v) else q) := by
  unfold objAssign
  rw [if_pos h]

theorem objAssign_of_not_has {α : Type} {m : List (String × α)} {k : String} (v : α)
    (h : ¬ objHasKey m k = true) : objAssign m k v = m ++ [(k, v)] := by
  unfold objAssign
  rw [if_neg h]

theorem find_none_of_not_has {α : Type} {m : List (String × α)} {k : String}
    (h : ¬ objHasKey m k = true) : m.find? (fun q => decide (q.1 = k)) = none := by
  rw [List.find?_eq_none]
  intro q hq
  by_contra hcon
  have : objHasKey m k = true := by
    unfold objHasKey
    rw [List.any_eq_true]
    exact ⟨q, hq, by simpa using hcon⟩
  exact h this

theorem objGet_assign_self {α : Type} (m : List (String × α)) (k : String) (v : α) :
    objGet (objAssign m k v) k = some v := by
  by_cases h : objHasKey m k
  · rw [objAssign_of_has v h]
    unfold objGet
    rw [find_map_assign k v m, if_pos h]
    rfl
  · rw [objAssign_of_not_has v h]
    unfold objGet
    rw [List.find?_append, find_none_of_not_has h]
    simp

theorem objGet_assign_ne {α : Type} (m : List (String × α)) (k k' : String) (v : α)
    (hne : k' ≠ k) : objGet (objAssign m k v) k' = objGet m k' := by
  by_cases h : objHasKey m k
  · rw [objAssign_of_has v h]
    unfold objGet
    rw [find_map_assign_ne k k' v hne m]
    cases hfind : m.find? (fun q => decide (q.1 = k')) with
    | none => simp
    | some q =>
        have hq : q.1 = k' := by
          have := List.find?_some hfind
          simpa using this
        have hqk : ¬ (q.1 = k) := by rw [hq]; exact hne
        simp [hqk]
  · rw [objAssign_of_not_has v h]
    unfold objGet
    rw [List.find?_append]
    have hk : ¬ ((k : String) = k') := fun hh => hne hh.symm
    cases hfind : m.find? (fun q => decide (q.1 = k')) with
    | none => simp [hk]
    | some q => simp

theorem mem_objAssign {α : Type} {m : List (String × α)} {k : String} {v : α}
    {p : String × α} (hp : p ∈ objAssign m k v) :
    p = (k, v) ∨ (p.1 ≠ k ∧ p ∈ m) := by
  unfold objAssign at hp
  by_cases h : objHasKey m k
  · simp only [h, if_true] at hp
    rcases List.mem_map.mp hp with ⟨q, hq, hfq⟩
    by_cases hqk : q.1 = k
    · left
      rw [← hfq]
      simp [hqk]
    · right
      rw [← hfq]
      simp only [if_neg hqk]
      exact ⟨hqk, hq⟩
  · simp only [h, if_false, Bool.false_eq_true, List.mem_append,
      List.mem_singleton] at hp
    rcases hp with hp | hp
    · right
      refine ⟨?_, hp⟩
      intro hpk
      have : objHasKey m k = true := by
        unfold objHasKey
        rw [List.any_eq_true]
        exact ⟨p, hp, by simpa using hpk⟩
      exact h this
    · left; exact hp

theorem objAssign_map_fst {α : Type} (m : List (String × α)) (k : String) (v : α) :
    (objAssign m k v).map Prod.fst =
      if objHasKey m k then m.map Prod.fst else m.map Prod.fst ++ [k] := by
  unfold objAssign
  by_cases h : objHasKey m k
  · simp only [h, if_true, List.map_map]
    apply List.map_congr_left
    intro q _
    by_cases hq : q.1 = k
    · simp [hq]
    · simp [hq]
  · simp [h]

theorem objGet_bumpScore_self (m : List (String × Nat)) (k : String) (v : Nat) :
    objGet (bumpScore m k v) k = some ((objGet m k).getD 0 + v) := by
  unfold bumpScore
  exact objGet_assign_self m k _

-- ==================== C2: updateLearning ====================

/-- C2: every updateLearning call increments totalSearches by exactly 1; with
foundCompanies > 0 it appends one success event and adds foundCompanies to the
three score maps at the given keys, otherwise it appends one failure event and
leaves the three score maps unchanged; successRate is recomputed as
100 * successes / total rounded to 2 decimals (as hundredths); and a first
update with foundCompanies = 3 on an empty store yields totalSearches = 1,
successRate 100.00 and bestNeighborhoods[neighborhood] = 3. -/
theorem C2_learning_update (ld : LearningData) (term nb bt strat : String)
    (found now : Nat) :
    (updateLearning ld term nb bt strat found now).totalSearches = ld.totalSearches + 1 ∧
    (found > 0 →
      (updateLearning ld term nb bt strat found now).successfulSearches =
        ld.successfulSearches ++ [⟨term, nb, bt, strat, some found, now⟩] ∧
      (updateLearning ld term nb bt strat found now).failedSearches = ld.failedSearches ∧
      objGet (updateLearning ld term nb bt strat found now).bestNeighborhoods nb =
        some ((objGet ld.bestNeighborhoods nb).getD 0 + found) ∧
      objGet (updateLearning ld term nb bt strat found now).bestBusinessTypes bt =
        some ((objGet ld.bestBusinessTypes bt).getD 0 + found) ∧
      objGet (updateLearning ld term nb bt strat found now).bestStrategies strat =
        some ((objGet ld.bestStrategies strat).getD 0 + found)) ∧
    (found = 0 →
      (updateLearning ld term nb bt strat found now).failedSearches =
        ld.failedSearches ++ [⟨term, nb, bt, strat, none, now⟩] ∧
      (updateLearning ld term nb bt strat found now).successfulSearches =
        ld.successfulSearches ∧
      (updateLearning ld term nb bt strat found now).bestNeighborhoods =
        ld.bestNeighborhoods ∧
      (updateLearning ld term nb bt strat found now).bestBusinessTypes =
        ld.bestBusinessTypes ∧
      (updateLearning ld term nb bt strat found now).bestStrategies =
        ld.bestStrategies) ∧
    (updateLearning ld term nb bt strat found now).successRate =
      jsToFixed2 (updateLearning ld term nb bt strat found now).successfulSearches.length
        (updateLearning ld term nb bt strat found now).totalSearches ∧
    ((updateLearning emptyLearning term nb bt strat 3 now).totalSearches = 1 ∧
     (updateLearning emptyLearning term nb bt strat 3 now).successRate = 10000 ∧
     objGet (updateLearning emptyLearning term nb bt strat 3 now).bestNeighborhoods nb =
       some 3) := by
  refine ⟨?_, ?_, ?_, ?_, ?_, ?_, ?_⟩
  · by_cases h : found > 0 <;> simp [updateLearning, h]
  · intro h
    refine ⟨?_, ?_, ?_, ?_, ?_⟩ <;>
      simp [updateLearning, h, bumpScore, objGet_assign_self]
  · intro h
    subst h
    simp [updateLearning]
  · by_cases h : found > 0 <;> simp [updateLearning, h]
  · simp [updateLearning, emptyLearning]
  · simp [updateLearning, jsToFixed2, emptyLearning]
  · have h0 : objGet ([] : List (String × Nat)) nb = none := rfl
    simp [updateLearning, emptyLearning, objGet_bumpScore_self, h0]

/-- C2 witness: the theorem applied at a concrete snapshot and inputs. -/
theorem C2_learning_update_witness :
    (updateLearning emptyLearning "restaurante Aldeota fortaleza" "Aldeota" "restaurante"
        "gmaps_local" 3 7).totalSearches = emptyLearning.totalSearches + 1 ∧
    (updateLearning emptyLearning "restaurante Aldeota fortaleza" "Aldeota" "restaurante"
        "gmaps_local" 3 7).successfulSearches =
      emptyLearning.successfulSearches ++
        [⟨"restaurante Aldeota fortaleza", "Aldeota", "restaurante", "gmaps_local", some 3, 7⟩] :=
  ⟨(C2_learning_update emptyLearning "restaurante Aldeota fortaleza" "Aldeota" "restaurante"
      "gmaps_local" 3 7).1,
   ((C2_learning_update emptyLearning "restaurante Aldeota fortaleza" "Aldeota" "restaurante"
      "gmaps_local" 3 7).2.1 (by decide)).1⟩

-- ==================== C5: validator heuristic stage ====================

/-- C5: the heuristic validation stage is a deterministic function of the page
signals with score = positives - 2 * negatives; any negative signal present
causes immediate rejection; otherwise score at least 3 accepts immediately and
score at most 1 rejects immediately; exactly the score-2 band falls through to
the model-judgment stage. -/
theorem C5_heuristic_stage (s : PageSignals) :
    (s.news = true ∨ s.directory = true ∨ s.social = true ∨ s.marketplace = true →
      heuristicStage s = .reject) ∧
    (s.news = false ∧ s.directory = false ∧ s.social = false ∧ s.marketplace = false →
      (signalScore s ≥ 3 → heuristicStage s = .accept) ∧
      (signalScore s ≤ 1 → heuristicStage s = .reject)) ∧
    (heuristicStage s = .consultModel ↔
      (s.news = false ∧ s.directory = false ∧ s.social = false ∧ s.marketplace = false ∧
       signalScore s = 2)) ∧
    signalScore s = (posCount s : Int) - 2 * (negCount s : Int) := by
  rcases s with ⟨c, sv, l, w, p, n, d, so, mk⟩
  revert c sv l w p n d so mk
  decide

/-- C5 witness: a page with a social-media negative signal is rejected outright
even though it shows four positive signals. -/
theorem C5_heuristic_stage_witness :
    heuristicStage
      { contact := true, services := true, location := true, whatsapp := true,
        pricing := false, news := false, directory := false, social := true,
        marketplace := false } = .reject :=
  (C5_heuristic_stage _).1 (Or.inr (Or.inr (Or.inl rfl)))

-- ==================== C3: cache TTL reads ====================

theorem cacheGet_none_of_absent {α : Type} (table : List (String × CacheEntry α))
    (key : String) (now ttl : Nat) (h : objGet table key = none) :
    cacheGet table key now ttl = none := by
  unfold cacheGet
  rw [h]

theorem cacheGet_none_of_expired {α : Type} (table : List (String × CacheEntry α))
    (key : String) (now ttl : Nat) (e : CacheEntry α)
    (h : objGet table key = some e) (hexp : now - e.timestamp > ttl) :
    cacheGet table key now ttl = none := by
  unfold cacheGet
  rw [h]
  show (if now - e.timestamp < ttl then some e.data else none) = none
  rw [if_neg]
  omega

/-- C3: cache reads never return an entry older than the TTL of the kind
(24 hours for search results, 7 days for company analyses): the read is absent
when no entry exists or when now minus the stored timestamp exceeds the TTL,
including the boundary timestamp now - ttl - 1. -/
theorem C3_cache_ttl (c : CacheState) (key : String) (now : Nat) :
    (objGet c.searchResults key = none → getCachedSearchResult c key now = none) ∧
    (∀ e, objGet c.searchResults key = some e → now - e.timestamp > SEARCH_CACHE_TTL →
      getCachedSearchResult c key now = none) ∧
    (∀ e, objGet c.searchResults key = some e → now ≥ SEARCH_CACHE_TTL + 1 →
      e.timestamp = now - SEARCH_CACHE_TTL - 1 → getCachedSearchResult c key now = none) ∧
    (objGet c.companyAnalyses key = none → getCachedCompanyAnalysis c key now = none) ∧
    (∀ e, objGet c.companyAnalyses key = some e → now - e.timestamp > ANALYSIS_CACHE_TTL →
      getCachedCompanyAnalysis c key now = none) ∧
    (∀ e, objGet c.companyAnalyses key = some e → now ≥ ANALYSIS_CACHE_TTL + 1 →
      e.timestamp = now - ANALYSIS_CACHE_TTL - 1 →
      getCachedCompanyAnalysis c key now = none) := by
  refine ⟨?_, ?_, ?_, ?_, ?_, ?_⟩
  · intro h
    exact cacheGet_none_of_absent _ _ _ _ h
  · intro e h hexp
    exact cacheGet_none_of_expired _ _ _ _ e h hexp
  · intro e h hge hts
    refine cacheGet_none_of_expired _ _ _ _ e h ?_
    rw [hts]
    omega
  · intro h
    exact cacheGet_none_of_absent _ _ _ _ h
  · intro e h hexp
    exact cacheGet_none_of_expired _ _ _ _ e h hexp
  · intro e h hge hts
    refine cacheGet_none_of_expired _ _ _ _ e h ?_
    rw [hts]
    omega

/-- C3 witness: a search-result entry cached 25 hours ago reads as absent. -/
theorem C3_cache_ttl_witness :
    getCachedSearchResult
      { searchResults := [("X", { data := { results := [], timestamp := 0 }, timestamp := 0 })],
        companyAnalyses := [] } "X" 90000000 = none :=
  (C3_cache_ttl _ "X" 90000000).2.1 { data := { results := [], timestamp := 0 }, timestamp := 0 }
    (by decide) (by decide)

-- ==================== C9: scraper extraction ====================

/-- C9: the page extraction emits at most 6 results, every emitted result has a
resolved title longer than 3 characters, and every emitted URL starts with http
and matches none of the blocked domains. -/
theorem C9_extraction (anchors : List Anchor) :
    (extractPageResults anchors).length ≤ 6 ∧
    (∀ r ∈ extractPageResults anchors,
      r.title.length > 3 ∧
      strStartsWith r.url "http" = true ∧
      ∀ d ∈ blockedDomains, strContains r.url d = false) := by
  constructor
  · unfold extractPageResults
    rw [List.length_map]
    exact List.length_take_le 6 _
  · intro r hr
    unfold extractPageResults at hr
    rcases List.mem_map.mp hr with ⟨a, ha, hfa⟩
    have ha6 := List.mem_of_mem_take ha
    have htitle := List.of_mem_filter ha6
    have ha8 := List.mem_of_mem_filter ha6
    have hafilter := List.mem_of_mem_take ha8
    have hallowed := List.of_mem_filter hafilter
    unfold linkAllowed at hallowed
    simp only [Bool.and_eq_true] at hallowed
    rcases hallowed with ⟨hstarts, hall⟩
    refine ⟨?_, ?_, ?_⟩
    · rw [← hfa]
      simpa using htitle
    · rw [← hfa]
      exact hstarts
    · intro d hd
      rw [← hfa]
      have := (List.all_eq_true.mp hall) d hd
      simpa using this

/-- C9 witness: one allowed anchor with a long title is extracted. -/
theorem C9_extraction_witness :
    ∀ d ∈ blockedDomains,
      strContains
        (List.headD (extractPageResults
          [{ href := "http://padaria-poquente.com.br", resolvedTitle := "Padaria Pao Quente",
             snippet := "padaria em Fortaleza" }])
          { title := "", url := "", description := "" }).url d = false := by
  intro d hd
  exact ((C9_extraction
    [{ href := "http://padaria-poquente.com.br", resolvedTitle := "Padaria Pao Quente",
       snippet := "padaria em Fortaleza" }]).2 _ (by decide)).2.2 d hd

-- ==================== C7: durable learning save ====================

theorem file_ne_tmp (file : String) : file ≠ file ++ ".tmp" := by
  intro h
  have hlen := congrArg String.length h
  rw [String.length_append] at hlen
  have h4 : String.length ".tmp" = 4 := rfl
  omega

/-- C7 counterexample: the API storage saveLearningData writes the learning
file in place; a crash mid-write can leave a partial file that is neither the
old snapshot nor the new one, so the claimed atomicity fails on that path. -/
theorem C7_counterexample :
    ¬ saveAtomic [("learning.json", "OLDDATA")]
        (apiSaveTrace "learning.json" "NEWDATA") "learning.json" "NEWDATA" := by
  intro h
  have hbad := h (fsSet [("learning.json", "OLDDATA")] "learning.json" "N") (by decide)
  revert hbad
  decide

/-- C7 amended: the standalone agent script saveLearningData is atomic — it
writes the snapshot to file.tmp and renames it over the durable file, so every
crash state shows either the old snapshot or the complete new one. -/
theorem C7_agent_save_atomic (fs0 : FileSys) (file content : String) :
    saveAtomic fs0 (agentSaveTrace file content) file content := by
  intro fs hfs
  have hne : file ≠ file ++ ".tmp" := file_ne_tmp file
  unfold agentSaveTrace crashStates at hfs
  simp only [List.mem_append] at hfs
  rcases hfs with hfs | hfs
  · -- crash before or during the write of file.tmp
    unfold opCrashStates at hfs
    rcases List.mem_cons.mp hfs with hfs | hfs
    · left
      rw [hfs]
    · rcases List.mem_map.mp hfs with ⟨k, _, hk⟩
      left
      rw [← hk]
      exact objGet_assign_ne fs0 (file ++ ".tmp") file _ hne
  · -- the write of file.tmp is complete
    unfold crashStates at hfs
    simp only [List.mem_append] at hfs
    have hwrite : applyOp fs0 (FsOp.write (file ++ ".tmp") content) =
        fsSet fs0 (file ++ ".tmp") content := rfl
    have htmp : fsGet (fsSet fs0 (file ++ ".tmp") content) (file ++ ".tmp") = some content :=
      objGet_assign_self fs0 (file ++ ".tmp") content
    have hafter : applyOp (fsSet fs0 (file ++ ".tmp") content)
        (FsOp.rename (file ++ ".tmp") file) =
        fsSet (fsDel (fsSet fs0 (file ++ ".tmp") content) (file ++ ".tmp")) file content := by
      simp only [applyOp, htmp]
    rcases hfs with hfs | hfs
    · unfold opCrashStates at hfs
      rcases List.mem_cons.mp hfs with hfs | hfs
      · -- crash before the rename
        left
        rw [hfs, hwrite]
        exact objGet_assign_ne fs0 (file ++ ".tmp") file content hne
      · rcases List.mem_singleton.mp hfs with rfl
        right
        rw [hwrite, hafter]
        exact objGet_assign_self _ file content
    · -- both operations complete
      unfold crashStates at hfs
      rcases List.mem_singleton.mp hfs with rfl
      right
      rw [hwrite, hafter]
      exact objGet_assign_self _ file content

/-- C7 witness: the agent-save atomicity applied at a concrete crash state
reached mid-write of the temporary file. -/
theorem C7_agent_save_atomic_witness :
    fsGet (fsSet [("learning.json", "OLDDATA")] ("learning.json" ++ ".tmp") "NEW")
        "learning.json" =
      fsGet [("learning.json", "OLDDATA")] "learning.json" ∨
    fsGet (fsSet [("learning.json", "OLDDATA")] ("learning.json" ++ ".tmp") "NEW")
        "learning.json" = some "NEWDATA" :=
  C7_agent_save_atomic [("learning.json", "OLDDATA")] "learning.json" "NEWDATA"
    (fsSet [("learning.json", "OLDDATA")] ("learning.json" ++ ".tmp") "NEW") (by decide)

-- ==================== Stable sort lemmas ====================

theorem insertBy_perm {α : Type} (le : α → α → Bool) (x : α) (l : List α) :
    (insertBy le x l).Perm (x :: l) := by
  induction l with
  | nil => exact List.Perm.refl _
  | cons y ys ih =>
      unfold insertBy
      by_cases h : le x y
      · rw [if_pos h]
      · rw [if_neg h]
        exact (ih.cons y).trans (List.Perm.swap x y ys)

theorem sortBy_perm {α : Type} (le : α → α → Bool) (l : List α) :
    (sortBy le l).Perm l := by
  induction l with
  | nil => exact List.Perm.refl _
  | cons x xs ih =>
      unfold sortBy
      exact (insertBy_perm le x (sortBy le xs)).trans (ih.cons x)

theorem pairwise_insertBy {α : Type} (le : α → α → Bool)
    (htrans : ∀ a b c, le a b = true → le b c = true → le a c = true)
    (htotal : ∀ a b, (le a b || le b a) = true) (x : α) (l : List α)
    (hp : List.Pairwise (fun a b => le a b = true) l) :
    List.Pairwise (fun a b => le a b = true) (insertBy le x l) := by
  induction l with
  | nil => simp [insertBy]
  | cons y ys ih =>
      rcases List.pairwise_cons.mp hp with ⟨hy, hys⟩
      unfold insertBy
      by_cases h : le x y
      · rw [if_pos h]
        refine List.Pairwise.cons ?_ hp
        intro z hz
        rcases List.mem_cons.mp hz with rfl | hz
        · exact h
        · exact htrans x y z h (hy z hz)
      · rw [if_neg h]
        have hyx : le y x = true := by
          have htot := htotal x y
          have hf : le x y = false := by
            cases hxy : le x y
            · rfl
            · exact absurd hxy h
          rw [hf] at htot
          simpa using htot
        refine List.Pairwise.cons ?_ (ih hys)
        intro z hz
        have hz' : z = x ∨ z ∈ ys := by
          have := (insertBy_perm le x ys).mem_iff.mp hz
          simpa using this
        rcases hz' with rfl | hz'
        · exact hyx
        · exact hy z hz'

theorem sortBy_pairwise {α : Type} (le : α → α → Bool)
    (htrans : ∀ a b c, le a b = true → le b c = true → le a c = true)
    (htotal : ∀ a b, (le a b || le b a) = true) (l : List α) :
    List.Pairwise (fun a b => le a b = true) (sortBy le l) := by
  induction l with
  | nil => constructor
  | cons x xs ih =>
      unfold sortBy
      exact pairwise_insertBy le htrans htotal x (sortBy le xs) ih

-- ==================== C8: cache capacity and eviction ====================

theorem byTimestampDesc_trans {α : Type} (a b c : String × CacheEntry α)
    (hab : byTimestampDesc a b = true) (hbc : byTimestampDesc b c = true) :
    byTimestampDesc a c = true := by
  unfold byTimestampDesc at *
  simp only [decide_eq_true_eq] at *
  omega

theorem byTimestampDesc_total {α : Type} (a b : String × CacheEntry α) :
    (byTimestampDesc a b || byTimestampDesc b a) = true := by
  unfold byTimestampDesc
  rcases Nat.le_total a.2.timestamp b.2.timestamp with h | h <;> simp [h]

theorem pruneOldest_length_le {α : Type} (l : List (String × CacheEntry α)) (cap : Nat) :
    (pruneOldest l cap).length ≤ cap := by
  unfold pruneOldest
  by_cases h : l.length > cap
  · rw [if_pos h]
    exact List.length_take_le _ _
  · rw [if_neg h]
    omega

theorem pruneOldest_dropped_le {α : Type} (l : List (String × CacheEntry α)) (cap : Nat)
    (x : String × CacheEntry α) (hx : x ∈ l) (hnx : x ∉ pruneOldest l cap)
    (y : String × CacheEntry α) (hy : y ∈ pruneOldest l cap) :
    x.2.timestamp ≤ y.2.timestamp := by
  unfold pruneOldest at hnx hy
  by_cases h : l.length > cap
  · rw [if_pos h] at hnx hy
    have hsorted : List.Pairwise (fun a b => byTimestampDesc a b = true)
        (sortBy byTimestampDesc l) :=
      sortBy_pairwise byTimestampDesc byTimestampDesc_trans byTimestampDesc_total l
    have hmem : x ∈ sortBy byTimestampDesc l :=
      (sortBy_perm byTimestampDesc l).mem_iff.mpr hx
    have hx_drop : x ∈ (sortBy byTimestampDesc l).drop cap := by
      have hsplit := List.take_append_drop cap (sortBy byTimestampDesc l)
      rw [← hsplit] at hmem
      rcases List.mem_append.mp hmem with h1 | h2
      · exact absurd h1 hnx
      · exact h2
    have hpairs : ∀ a ∈ (sortBy byTimestampDesc l).take cap,
        ∀ b ∈ (sortBy byTimestampDesc l).drop cap, byTimestampDesc a b = true := by
      have := hsorted
      rw [← List.take_append_drop cap (sortBy byTimestampDesc l)] at this
      exact (List.pairwise_append.mp this).2.2
    have := hpairs y hy x hx_drop
    unfold byTimestampDesc at this
    simpa using this
  · rw [if_neg h] at hnx
    exact absurd hx hnx

/-- C8: after every cache write the kind's table holds at most its capacity
(1000 search results, 500 company analyses), and every entry evicted by the
write is no newer than every surviving entry (oldest-by-timestamp eviction);
the same holds for the shared insert-then-prune routine at any capacity. -/
theorem C8_cache_capacity :
    (∀ (c : CacheState) (term : String) (d : SearchData) (now : Nat),
      (setCachedSearchResult c term d now).searchResults.length ≤ 1000 ∧
      ∀ x ∈ objAssign c.searchResults term { data := d, timestamp := now },
        x ∉ (setCachedSearchResult c term d now).searchResults →
        ∀ y ∈ (setCachedSearchResult c term d now).searchResults,
          x.2.timestamp ≤ y.2.timestamp) ∧
    (∀ (c : CacheState) (cid : String) (a : String) (now : Nat),
      (setCachedCompanyAnalysis c cid a now).companyAnalyses.length ≤ 500 ∧
      ∀ x ∈ objAssign c.companyAnalyses cid { data := a, timestamp := now },
        x ∉ (setCachedCompanyAnalysis c cid a now).companyAnalyses →
        ∀ y ∈ (setCachedCompanyAnalysis c cid a now).companyAnalyses,
          x.2.timestamp ≤ y.2.timestamp) ∧
    (∀ (cap : Nat) (table : List (String × CacheEntry SearchData)) (key : String)
        (d : SearchData) (now : Nat),
      (cacheSet table key d now cap).length ≤ cap ∧
      ∀ x ∈ objAssign table key { data := d, timestamp := now },
        x ∉ cacheSet table key d now cap →
        ∀ y ∈ cacheSet table key d now cap, x.2.timestamp ≤ y.2.timestamp) := by
  refine ⟨?_, ?_, ?_⟩
  · intro c term d now
    exact ⟨pruneOldest_length_le _ 1000,
      fun x hx hnx y hy => pruneOldest_dropped_le _ 1000 x hx hnx y hy⟩
  · intro c cid a now
    exact ⟨pruneOldest_length_le _ 500,
      fun x hx hnx y hy => pruneOldest_dropped_le _ 500 x hx hnx y hy⟩
  · intro cap table key d now
    exact ⟨pruneOldest_length_le _ cap,
      fun x hx hnx y hy => pruneOldest_dropped_le _ cap x hx hnx y hy⟩

/-- C8 witness: at capacity 1 the stale entry is evicted and is older than the
surviving fresh entry. -/
theorem C8_cache_capacity_witness :
    ("a", ({ data := { results := [], timestamp := 5 }, timestamp := 5 } : CacheEntry SearchData)) ∈
      objAssign [("a", { data := { results := [], timestamp := 5 }, timestamp := 5 })] "b"
        { data := { results := [], timestamp := 9 }, timestamp := 9 } ∧
    (5 : Nat) ≤ 9 :=
  ⟨by decide,
   (C8_cache_capacity.2.2 1 [("a", { data := { results := [], timestamp := 5 }, timestamp := 5 })]
      "b" { results := [], timestamp := 9 } 9).2
     ("a", { data := { results := [], timestamp := 5 }, timestamp := 5 }) (by decide) (by decide)
     ("b", { data := { results := [], timestamp := 9 }, timestamp := 9 }) (by decide)⟩

-- ==================== Dedup and last-index lemmas ====================

theorem dedupFirst_concat (qs : List String) (s : String) :
    Ai.dedupFirst (qs ++ [s]) =
      if s ∈ Ai.dedupFirst qs then Ai.dedupFirst qs else Ai.dedupFirst qs ++ [s] := by
  unfold Ai.dedupFirst
  rw [List.foldl_append]
  rfl

theorem mem_dedupFirst (l : List String) (s : String) :
    s ∈ Ai.dedupFirst l ↔ s ∈ l := by
  induction l using List.reverseRecOn with
  | nil => simp [Ai.dedupFirst]
  | append_singleton qs x ih =>
      rw [dedupFirst_concat]
      by_cases hx : x ∈ Ai.dedupFirst qs
      · rw [if_pos hx]
        rw [ih]
        simp only [List.mem_append, List.mem_singleton]
        constructor
        · exact fun h => Or.inl h
        · rintro (h | rfl)
          · exact h
          · exact ih.mp hx
      · rw [if_neg hx]
        simp only [List.mem_append, List.mem_singleton, ih]

theorem dedupFirst_nodup (l : List String) : (Ai.dedupFirst l).Nodup := by
  induction l using List.reverseRecOn with
  | nil => simp [Ai.dedupFirst]
  | append_singleton qs x ih =>
      rw [dedupFirst_concat]
      by_cases hx : x ∈ Ai.dedupFirst qs
      · rw [if_pos hx]
        exact ih
      · rw [if_neg hx]
        rw [List.nodup_append]
        refine ⟨ih, List.nodup_singleton x, ?_⟩
        intro a ha hax
        rw [List.mem_singleton] at hax
        subst hax
        exact hx ha

theorem lastIdxOf_concat_self (l : List String) (s : String) :
    Ai.lastIdxOf (l ++ [s]) s = l.length := by
  unfold Ai.lastIdxOf
  rw [List.reverse_append]
  simp [List.indexOf_cons_self]

theorem lastIdxOf_concat_ne (l : List String) (s s' : String) (h : s' ≠ s)
    (hmem : s' ∈ l) : Ai.lastIdxOf (l ++ [s]) s' = Ai.lastIdxOf l s' := by
  unfold Ai.lastIdxOf
  rw [List.reverse_append]
  have hidx : List.indexOf s' ([s].reverse ++ l.reverse) =
      (List.indexOf s' l.reverse).succ := by
    simp only [List.reverse_singleton, List.singleton_append]
    exact List.indexOf_cons_ne _ (fun hh => h hh.symm)
  rw [hidx]
  have hlt : List.indexOf s' l.reverse < l.reverse.length :=
    List.indexOf_lt_length.mpr (List.mem_reverse.mpr hmem)
  rw [List.length_reverse] at hlt
  simp only [List.length_append, List.length_singleton]
  omega

-- ==================== Strategy weight table lemmas ====================

theorem strategyWeightList_concat (qs : List String) (s : String) :
    Ai.strategyWeightList (qs ++ [s]) =
      objAssign (Ai.strategyWeightList qs) s (max 1 (4 - qs.length)) := by
  unfold Ai.strategyWeightList
  rw [List.enum_append, List.foldl_append]
  rfl

theorem strategyWeightList_spec (ps : List String) :
    (Ai.strategyWeightList ps).map Prod.fst = Ai.dedupFirst ps ∧
    ∀ p ∈ Ai.strategyWeightList ps, p.2 = max 1 (4 - Ai.lastIdxOf ps p.1) := by
  induction ps using List.reverseRecOn with
  | nil => exact ⟨rfl, by intro p hp; simp [Ai.strategyWeightList] at hp⟩
  | append_singleton qs s ih =>
      rcases ih with ⟨ihkeys, ihvals⟩
      constructor
      · rw [strategyWeightList_concat, objAssign_map_fst, dedupFirst_concat, ihkeys]
        by_cases hs : s ∈ Ai.dedupFirst qs
        · rw [if_pos hs, if_pos ((objHasKey_iff _ s).mpr (ihkeys ▸ hs))]
        · rw [if_neg hs, if_neg ?_]
          intro hcon
          exact hs (ihkeys ▸ (objHasKey_iff _ s).mp hcon)
      · intro p hp
        rw [strategyWeightList_concat] at hp
        rcases mem_objAssign hp with rfl | ⟨hne, hpmem⟩
        · simp only
          rw [lastIdxOf_concat_self]
        · have hp1 : p.1 ∈ qs := by
            have : p.1 ∈ (Ai.strategyWeightList qs).map Prod.fst :=
              List.mem_map.mpr ⟨p, hpmem, rfl⟩
            rw [ihkeys] at this
            exact (mem_dedupFirst qs p.1).mp this
          rw [lastIdxOf_concat_ne qs s p.1 hne hp1]
          exact ihvals p hpmem

theorem strategyWeightList_values_ge_one (ps : List String) :
    ∀ p ∈ Ai.strategyWeightList ps, 1 ≤ p.2 := by
  intro p hp
  rw [(strategyWeightList_spec ps).2 p hp]
  exact Nat.le_max_left 1 _

-- ==================== C6: priority strategy weights ====================

/-- C6 counterexample: with gmaps_local as the single ranked strategy the code
assigns it weight 3 (its later, canonical-list index wins), not the weight 4
the claimed first-occurrence rule would give; the resulting weight table
differs from the spec-described one. -/
theorem C6_counterexample :
    Ai.strategyWeightList (Ai.priorityStrategies ld1) ≠
      Ai.specStrategyWeights (Ai.priorityStrategies ld1) := by
  decide

/-- C6 amended: the weight table keys are the priority list deduplicated
keeping first occurrences in order, but each strategy's weight is
max(1, 4 - i) where i is the index of its last occurrence in the
un-deduplicated priority list — a top-ranked strategy that also appears among
the canonical four gets the lower weight of its later position. -/
theorem C6_priority_weights (ld : LearningData) :
    (Ai.strategyWeightList (Ai.priorityStrategies ld)).map Prod.fst =
      Ai.dedupFirst (Ai.priorityStrategies ld) ∧
    ∀ p ∈ Ai.strategyWeightList (Ai.priorityStrategies ld),
      p.2 = max 1 (4 - Ai.lastIdxOf (Ai.priorityStrategies ld) p.1) :=
  strategyWeightList_spec (Ai.priorityStrategies ld)

/-- C6 witness: on the concrete snapshot ld1 the duplicated gmaps_local
strategy keeps its first position but carries the weight of its last index. -/
theorem C6_priority_weights_witness :
    ("gmaps_local", 3) ∈ Ai.strategyWeightList (Ai.priorityStrategies ld1) ∧
    (3 : Nat) = max 1 (4 - Ai.lastIdxOf (Ai.priorityStrategies ld1) "gmaps_local") :=
  ⟨by decide, (C6_priority_weights ld1).2 ("gmaps_local", 3) (by decide)⟩

-- ==================== Allocation arithmetic ====================

theorem add_div_le (a b d : Nat) : a / d + b / d ≤ (a + b) / d := by
  rcases Nat.eq_zero_or_pos d with hd | hd
  · subst hd
    simp
  · rw [Nat.le_div_iff_mul_le hd, Nat.add_mul]
    exact Nat.add_le_add (Nat.div_mul_le_self a d) (Nat.div_mul_le_self b d)

theorem sum_map_div_le (l : List Nat) (d : Nat) :
    (l.map (fun a => a / d)).sum ≤ l.sum / d := by
  induction l with
  | nil => simp
  | cons a t ih =>
      simp only [List.map_cons, List.sum_cons]
      calc a / d + (t.map (fun a => a / d)).sum ≤ a / d + t.sum / d :=
            Nat.add_le_add_left ih _
        _ ≤ (a + t.sum) / d := add_div_le a t.sum d

theorem allocSum_le (ws : List (String × Nat)) (M : Nat)
    (hT : 0 < Ai.totalWeight ws) :
    ((ws.map (fun p => Ai.allocOf p.2 (Ai.totalWeight ws) M)).sum) ≤ M := by
  have h1 : ws.map (fun p => Ai.allocOf p.2 (Ai.totalWeight ws) M) =
      (ws.map (fun p => p.2 * M)).map (fun a => a / Ai.totalWeight ws) := by
    rw [List.map_map]
    rfl
  rw [h1]
  have h2 := sum_map_div_le (ws.map (fun p => p.2 * M)) (Ai.totalWeight ws)
  have h3 : (ws.map (fun p => p.2 * M)).sum = Ai.totalWeight ws * M := by
    unfold Ai.totalWeight
    rw [← List.sum_map_mul_right]
  rw [h3] at h2
  rw [Nat.mul_div_cancel_left M hT] at h2
  exact h2

theorem priorityStrategies_ne_nil (ld : LearningData) :
    Ai.priorityStrategies ld ≠ [] := by
  unfold Ai.priorityStrategies
  by_cases h : (Ai.sortedByScoreDesc ld.bestStrategies).length > 0
  · rw [if_pos h]
    simp
  · rw [if_neg h]
    simp

theorem totalWeight_pos (ps : List String) (hne : ps ≠ []) :
    0 < Ai.totalWeight (Ai.strategyWeightList ps) := by
  rcases List.exists_mem_of_ne_nil ps hne with ⟨s, hs⟩
  have hd : s ∈ Ai.dedupFirst ps := (mem_dedupFirst ps s).mpr hs
  have hkeys := (strategyWeightList_spec ps).1
  have hw : s ∈ (Ai.strategyWeightList ps).map Prod.fst := by rw [hkeys]; exact hd
  rcases List.mem_map.mp hw with ⟨q, hq, _⟩
  have hq1 := strategyWeightList_values_ge_one ps q hq
  unfold Ai.totalWeight
  calc 0 < q.2 := hq1
    _ ≤ ((Ai.strategyWeightList ps).map (fun p => p.2)).sum :=
        List.single_le_sum (fun x _ => Nat.zero_le x) _ (List.mem_map.mpr ⟨q, hq, rfl⟩)

-- ==================== Generator fold structure ====================

theorem gen_fold (pn pb : List String) (M T : Nat) :
    ∀ (l : List (String × Nat)) (acc : List Ai.SearchTask × Nat),
      acc.2 = acc.1.length →
      acc.2 + (l.map (fun p => Ai.allocOf p.2 T M)).sum ≤ M →
      (l.foldl (Ai.genStep pn pb M T) acc).1 =
        acc.1 ++ l.flatMap
          (fun p => (List.range (Ai.allocOf p.2 T M)).map (Ai.mkTask pn pb p.1)) := by
  intro l
  induction l with
  | nil =>
      intro acc h1 h2
      simp
  | cons q t ih =>
      intro acc h1 h2
      simp only [List.map_cons, List.sum_cons] at h2
      simp only [List.foldl_cons, List.flatMap_cons]
      by_cases hc : Ai.allocOf q.2 T M = 0
      · have hstep : Ai.genStep pn pb M T acc q = acc := by
          unfold Ai.genStep
          rw [if_pos hc]
        rw [hstep, ih acc h1 (by omega), hc]
        simp
      · have hk : min (Ai.allocOf q.2 T M) (M - acc.2) = Ai.allocOf q.2 T M := by
          omega
        have hstep : Ai.genStep pn pb M T acc q =
            (acc.1 ++ (List.range (Ai.allocOf q.2 T M)).map (Ai.mkTask pn pb q.1),
             acc.2 + Ai.allocOf q.2 T M) := by
          unfold Ai.genStep
          rw [if_neg hc, hk]
        rw [hstep]
        rw [ih _ ?_ ?_]
        · rw [List.append_assoc]
        · simp [h1]
        · simp only
          omega

theorem generate_eq_flat (ld : LearningData) (M : Nat) :
    Ai.generateSmartSearchTerms ld M =
      (Ai.strategyWeightList (Ai.priorityStrategies ld)).flatMap
        (fun p => (List.range (Ai.allocOf p.2
            (Ai.totalWeight (Ai.strategyWeightList (Ai.priorityStrategies ld))) M)).map
          (Ai.mkTask (Ai.priorityNeighborhoods ld) (Ai.priorityBusinessTypes ld) p.1)) := by
  unfold Ai.generateSmartSearchTerms
  have h := gen_fold (Ai.priorityNeighborhoods ld) (Ai.priorityBusinessTypes ld) M
    (Ai.totalWeight (Ai.strategyWeightList (Ai.priorityStrategies ld)))
    (Ai.strategyWeightList (Ai.priorityStrategies ld)) ([], 0) rfl ?_
  · simpa using h
  · have := allocSum_le (Ai.strategyWeightList (Ai.priorityStrategies ld)) M
      (totalWeight_pos _ (priorityStrategies_ne_nil ld))
    simpa using this

-- ==================== Per-strategy counts ====================

theorem mkTask_strategy (pn pb : List String) (s : String) (i : Nat) :
    (Ai.mkTask pn pb s i).strategy = s := rfl

theorem countP_block (pn pb : List String) (s q : String) (k : Nat) :
    (((List.range k).map (Ai.mkTask pn pb q)).countP
        (fun t => decide (t.strategy = s))) = if q = s then k else 0 := by
  rw [List.countP_map]
  have hcomp : ((fun t => decide (t.strategy = s)) ∘ Ai.mkTask pn pb q) =
      fun _ => decide (q = s) := rfl
  rw [hcomp]
  by_cases h : q = s
  · rw [if_pos h]
    simp [h, List.countP_true]
  · rw [if_neg h]
    simp [decide_eq_false h, List.countP_false]

theorem countP_blocks_zero (pn pb : List String) (M T : Nat) (s : String) :
    ∀ (l : List (String × Nat)), (∀ q ∈ l, q.1 ≠ s) →
      ((l.flatMap
          (fun p => (List.range (Ai.allocOf p.2 T M)).map (Ai.mkTask pn pb p.1))).countP
        (fun t => decide (t.strategy = s))) = 0 := by
  intro l
  induction l with
  | nil => simp
  | cons q t ih =>
      intro hl
      rw [List.flatMap_cons, List.countP_append, countP_block]
      rw [if_neg (hl q (List.mem_cons_self q t))]
      rw [ih (fun q' hq' => hl q' (List.mem_cons_of_mem q hq'))]

theorem countP_blocks (pn pb : List String) (M T : Nat) :
    ∀ (l : List (String × Nat)) (s : String) (w : Nat),
      (s, w) ∈ l → (l.map Prod.fst).Nodup →
      ((l.flatMap
          (fun p => (List.range (Ai.allocOf p.2 T M)).map (Ai.mkTask pn pb p.1))).countP
        (fun t => decide (t.strategy = s))) = Ai.allocOf w T M := by
  intro l
  induction l with
  | nil =>
      intro s w hmem
      exact absurd hmem (List.not_mem_nil _)
  | cons q t ih =>
      intro s w hmem hnd
      rw [List.flatMap_cons, List.countP_append, countP_block]
      have hnd' : q.1 ∉ (t.map Prod.fst) ∧ (t.map Prod.fst).Nodup := by
        rw [List.map_cons, List.nodup_cons] at hnd
        exact hnd
      rcases List.mem_cons.mp hmem with heq | hmem'
      · have hq1 : q.1 = s := by rw [← heq]
        have hq2 : q.2 = w := by rw [← heq]
        rw [if_pos hq1, hq2]
        have hnot : ∀ q' ∈ t, q'.1 ≠ s := by
          intro q' hq'
          intro hcon
          exact hnd'.1 (hq1 ▸ hcon ▸ List.mem_map.mpr ⟨q', hq', rfl⟩)
        rw [countP_blocks_zero pn pb M T s t hnot]
        omega
      · have hq1 : q.1 ≠ s := by
          intro hcon
          exact hnd'.1 (hcon ▸ List.mem_map.mpr ⟨(s, w), hmem', rfl⟩)
        rw [if_neg hq1, Nat.zero_add]
        exact ih s w hmem' hnd'.2

-- ==================== C1: generator bounds and proportionality ====================

/-- C1: for every learning snapshot and maxTerms the generator emits at most
maxTerms tasks; the number of tasks emitted for each strategy in the weight
table is exactly floor(weight / totalWeight * maxTerms), so a zero allocation
emits nothing; and undershoot from rounding is real: at maxTerms = 11 on an
empty snapshot only 10 tasks come out, with no re-balancing. -/
theorem C1_generate_bounded (ld : LearningData) (M : Nat) :
    (Ai.generateSmartSearchTerms ld M).length ≤ M ∧
    (∀ s w, (s, w) ∈ Ai.strategyWeightList (Ai.priorityStrategies ld) →
      ((Ai.generateSmartSearchTerms ld M).countP (fun t => decide (t.strategy = s))) =
        Ai.allocOf w (Ai.totalWeight (Ai.strategyWeightList (Ai.priorityStrategies ld))) M) ∧
    (Ai.generateSmartSearchTerms emptyLearning 11).length < 11 := by
  refine ⟨?_, ?_, ?_⟩
  · rw [generate_eq_flat, List.length_flatMap]
    have hlen : (List.map
        (List.length ∘ fun p => (List.range (Ai.allocOf p.2
          (Ai.totalWeight (Ai.strategyWeightList (Ai.priorityStrategies ld))) M)).map
          (Ai.mkTask (Ai.priorityNeighborhoods ld) (Ai.priorityBusinessTypes ld) p.1))
        (Ai.strategyWeightList (Ai.priorityStrategies ld))) =
        (Ai.strategyWeightList (Ai.priorityStrategies ld)).map
          (fun p => Ai.allocOf p.2
            (Ai.totalWeight (Ai.strategyWeightList (Ai.priorityStrategies ld))) M) := by
      apply List.map_congr_left
      intro q _
      simp
    rw [hlen]
    exact allocSum_le _ M (totalWeight_pos _ (priorityStrategies_ne_nil ld))
  · intro s w hmem
    rw [generate_eq_flat]
    refine countP_blocks _ _ M _ _ s w hmem ?_
    rw [(strategyWeightList_spec (Ai.priorityStrategies ld)).1]
    exact dedupFirst_nodup _
  · decide

/-- C1 witness: on the empty snapshot the gmaps_local strategy (weight 4 of
total 10) receives exactly floor(4/10 * 20) = 8 of 20 requested tasks. -/
theorem C1_generate_bounded_witness :
    ((Ai.generateSmartSearchTerms emptyLearning 20).countP
        (fun t => decide (t.strategy = "gmaps_local"))) =
      Ai.allocOf 4 (Ai.totalWeight (Ai.strategyWeightList
        (Ai.priorityStrategies emptyLearning))) 20 :=
  (C1_generate_bounded emptyLearning 20).2.1 "gmaps_local" 4 (by decide)

-- ==================== C4: re-entry of a completed search ====================

/-- C4 counterexample: re-running the handler on a term whose completion
record has completedAt set does end in the skipped state, but it is not a
no-op on stored state — the cache gains an entry and the aggregate stats
counters are incremented, so the resulting storage differs from the input. -/
theorem C4_counterexample :
    (SearchApi.handler st0 0 2000 []).outcome = SearchApi.HandlerOutcome.skipped ∧
    (SearchApi.handler st0 0 2000 []).state ≠ st0 := by
  decide

/-- C4 amended: when no unexpired cache entry exists for the term and the
stored completion record has completedAt set, the handler ends in the skipped
state, never consults the browser, and replays the records stored under the
search term (the completion record itself included, as it carries the same
searchTerm field); companies and learning data are untouched, but the replayed
results are written to the cache and the totalResults/neighborhood/business
stats are incremented. -/
theorem C4_skip_replay (st : SearchApi.Storage) (idx now : Nat)
    (browserResults : List RawResult) (rec : CompanyRec)
    (hcache : getCachedSearchResult st.cache (SearchApi.searchTermOf idx) now = none)
    (hrec : objGet st.companies (searchKey (SearchApi.searchTermOf idx)) = some rec)
    (hdone : SearchApi.truthyTime rec.completedAt = true) :
    (SearchApi.handler st idx now browserResults).outcome =
      SearchApi.HandlerOutcome.skipped ∧
    (SearchApi.handler st idx now browserResults).usedBrowser = false ∧
    (SearchApi.handler st idx now browserResults).results =
      SearchApi.getCompaniesBySearchTerm st (SearchApi.searchTermOf idx) ∧
    (SearchApi.handler st idx now browserResults).state.companies = st.companies ∧
    (SearchApi.handler st idx now browserResults).state.learning = st.learning ∧
    (SearchApi.handler st idx now browserResults).state.cache =
      setCachedSearchResult st.cache (SearchApi.searchTermOf idx)
        { results := SearchApi.getCompaniesBySearchTerm st (SearchApi.searchTermOf idx),
          timestamp := now } now ∧
    (SearchApi.handler st idx now browserResults).state.stats =
      SearchApi.incResultStats st.stats (SearchApi.neighborhoodOf idx)
        (SearchApi.businessOf idx)
        (SearchApi.getCompaniesBySearchTerm st (SearchApi.searchTermOf idx)).length := by
  unfold SearchApi.handler
  dsimp only
  rw [hcache, hrec]
  dsimp only
  rw [if_pos hdone]
  exact ⟨rfl, rfl, rfl, rfl, rfl, rfl, rfl⟩

/-- C4 witness: the amended skip behavior at the concrete one-record store. -/
theorem C4_skip_replay_witness :
    (SearchApi.handler st0 0 2000 []).outcome = SearchApi.HandlerOutcome.skipped ∧
    (SearchApi.handler st0 0 2000 []).usedBrowser = false :=
  ⟨(C4_skip_replay st0 0 2000 []
      { searchTerm := SearchApi.searchTermOf 0, neighborhood := "Aldeota",
        businessType := "restaurante", completedAt := some 1000,
        resultsCount := some 0, savedAt := some 1000 }
      (by decide) (by decide) (by decide)).1,
   (C4_skip_replay st0 0 2000 []
      { searchTerm := SearchApi.searchTermOf 0, neighborhood := "Aldeota",
        businessType := "restaurante", completedAt := some 1000,
        resultsCount := some 0, savedAt := some 1000 }
      (by decide) (by decide) (by decide)).2.1⟩

-- ==================== Base64 prefix determination ====================

theorem take2_b64Encode (b0 b1 : Nat) (r : List Nat) :
    (b64Encode (b0 :: b1 :: r)).take 2 =
      [b64Char (b0 / 4), b64Char ((b0 % 4) * 16 + b1 / 16)] := by
  cases r <;> rfl

theorem b64_take_aux : ∀ (n : Nat) (l1 l2 : List Nat),
    l1.take (3 * n + 2) = l2.take (3 * n + 2) →
    (b64Encode l1).take (4 * n + 2) = (b64Encode l2).take (4 * n + 2) := by
  intro n
  induction n with
  | zero =>
      intro l1 l2 h
      have e3 : 3 * 0 + 2 = 0 + 1 + 1 := by norm_num
      have e4 : 4 * 0 + 2 = 2 := by norm_num
      rw [e3] at h
      rw [e4]
      cases l1 with
      | nil =>
          cases l2 with
          | nil => rfl
          | cons b t2 =>
              rw [List.take_nil, List.take_succ_cons] at h
              exact List.noConfusion h
      | cons a t1 =>
          cases l2 with
          | nil =>
              rw [List.take_nil, List.take_succ_cons] at h
              exact List.noConfusion h
          | cons b t2 =>
              rw [List.take_succ_cons, List.take_succ_cons] at h
              injection h with hab h
              subst hab
              cases t1 with
              | nil =>
                  cases t2 with
                  | nil => rfl
                  | cons c t2' =>
                      rw [List.take_nil, List.take_succ_cons] at h
                      exact List.noConfusion h
              | cons c t1' =>
                  cases t2 with
                  | nil =>
                      rw [List.take_nil, List.take_succ_cons] at h
                      exact List.noConfusion h
                  | cons d t2' =>
                      rw [List.take_succ_cons, List.take_succ_cons] at h
                      injection h with hcd h
                      subst hcd
                      rw [take2_b64Encode, take2_b64Encode]
  | succ m ih =>
      intro l1 l2 h
      have e3 : 3 * (m + 1) + 2 = 3 * m + 2 + 1 + 1 + 1 := by ring
      have e4 : 4 * (m + 1) + 2 = 4 * m + 2 + 1 + 1 + 1 + 1 := by ring
      rw [e3] at h
      rw [e4]
      cases l1 with
      | nil =>
          cases l2 with
          | nil => rfl
          | cons b t2 =>
              rw [List.take_nil, List.take_succ_cons] at h
              exact List.noConfusion h
      | cons a t1 =>
          cases l2 with
          | nil =>
              rw [List.take_nil, List.take_succ_cons] at h
              exact List.noConfusion h
          | cons b t2 =>
              rw [List.take_succ_cons, List.take_succ_cons] at h
              injection h with hab h
              subst hab
              cases t1 with
              | nil =>
                  cases t2 with
                  | nil => rfl
                  | cons c t2' =>
                      rw [List.take_nil, List.take_succ_cons] at h
                      exact List.noConfusion h
              | cons c t1' =>
                  cases t2 with
                  | nil =>
                      rw [List.take_nil, List.take_succ_cons] at h
                      exact List.noConfusion h
                  | cons d t2' =>
                      rw [List.take_succ_cons, List.take_succ_cons] at h
                      injection h with hcd h
                      subst hcd
                      cases t1' with
                      | nil =>
                          cases t2' with
                          | nil => rfl
                          | cons f t2x =>
                              rw [List.take_nil, List.take_succ_cons] at h
                              exact List.noConfusion h
                      | cons f1 t1x =>
                          cases t2' with
                          | nil =>
                              rw [List.take_nil, List.take_succ_cons] at h
                              exact List.noConfusion h
                          | cons f2 t2x =>
                              rw [List.take_succ_cons, List.take_succ_cons] at h
                              injection h with hf h
                              subst hf
                              have henc : ∀ t : List Nat, b64Encode (a :: c :: f1 :: t) =
                                  b64Char (a / 4) :: b64Char ((a % 4) * 16 + c / 16) ::
                                  b64Char ((c % 16) * 4 + f1 / 64) :: b64Char (f1 % 64) ::
                                  b64Encode t := fun t => rfl
                              rw [henc, henc]
                              simp only [List.take_succ_cons]
                              rw [ih t1x t2x h]

theorem b64Encode_take50_eq (l1 l2 : List Nat) (h : l1.take 38 = l2.take 38) :
    (b64Encode l1).take 50 = (b64Encode l2).take 50 := by
  have e1 : (38 : Nat) = 3 * 12 + 2 := by norm_num
  have e2 : (50 : Nat) = 4 * 12 + 2 := by norm_num
  rw [e1] at h
  rw [e2]
  exact b64_take_aux 12 l1 l2 h

theorem companyKey_eq_of_agree38 (u1 u2 : String)
    (h : (strBytes u1).take 38 = (strBytes u2).take 38) :
    companyKey u1 = companyKey u2 := by
  unfold companyKey base64
  rw [String.take_eq, String.take_eq]
  show "company:" ++ String.mk ((b64Encode (strBytes u1)).take 50) =
    "company:" ++ String.mk ((b64Encode (strBytes u2)).take 50)
  rw [b64Encode_take50_eq (strBytes u1) (strBytes u2) h]

theorem countP_key_objAssign_le_one {α : Type} (m : List (String × α)) (k : String) (v : α)
    (h : m.countP (fun p => decide (p.1 = k)) ≤ 1) :
    (objAssign m k v).countP (fun p => decide (p.1 = k)) ≤ 1 := by
  unfold objAssign
  by_cases hk : objHasKey m k
  · rw [if_pos hk, List.countP_map]
    have hfun : ((fun p => decide (p.1 = k)) ∘ fun q => if q.1 = k then (k, v) else q) =
        (fun p : String × α => decide (p.1 = k)) := by
      funext q
      by_cases hq : q.1 = k
      · simp [hq]
      · simp [hq]
    rw [hfun]
    exact h
  · rw [if_neg hk, List.countP_append]
    have hzero : m.countP (fun p => decide (p.1 = k)) = 0 := by
      rw [List.countP_eq_zero]
      intro p hp
      simp only [decide_eq_true_eq]
      intro hcon
      refine hk ?_
      unfold objHasKey
      rw [List.any_eq_true]
      exact ⟨p, hp, by simpa using hcon⟩
    have hone : ([(k, v)] : List (String × α)).countP (fun p => decide (p.1 = k)) = 1 := by
      simp
    rw [hzero, hone]

-- ==================== C10: company persistence key ====================

set_option maxRecDepth 16384 in
/-- C10 counterexample: agreement on the first 37 bytes is not enough for a
key collision — these two distinct URLs share their first 37 bytes yet get
different keys, because the 50th base64 character still depends on the top
four bits of byte 38. -/
theorem C10_counterexample :
    (strBytes u1c).take 37 = (strBytes u2c).take 37 ∧ u1c ≠ u2c ∧
    companyKey u1c ≠ companyKey u2c := by
  decide

/-- C10 amended: the persistence key is company: plus the first 50 base64
characters of the URL bytes; saving the same URL twice uses the same key, the
second save overwrites the first and leaves at most one record under the key;
and the key function is not injective — any two URLs agreeing on their first
38 bytes receive the same key, so the later save silently replaces the earlier
record. -/
theorem C10_company_key (st : SearchApi.Storage) (u u1 u2 : String)
    (r1 r2 : CompanyRec) (t1 t2 : Nat)
    (h38 : (strBytes u1).take 38 = (strBytes u2).take 38)
    (hdup : st.companies.countP (fun p => decide (p.1 = companyKey u)) ≤ 1) :
    companyKey u1 = companyKey u2 ∧
    objGet (SearchApi.saveCompany (SearchApi.saveCompany st (companyKey u) r1 t1)
        (companyKey u) r2 t2).companies (companyKey u) =
      some { r2 with savedAt := some t2 } ∧
    ((SearchApi.saveCompany (SearchApi.saveCompany st (companyKey u) r1 t1)
        (companyKey u) r2 t2).companies.countP
      (fun p => decide (p.1 = companyKey u))) ≤ 1 := by
  refine ⟨companyKey_eq_of_agree38 u1 u2 h38, ?_, ?_⟩
  · unfold SearchApi.saveCompany
    exact objGet_assign_self _ _ _
  · unfold SearchApi.saveCompany
    exact countP_key_objAssign_le_one _ _ _ (countP_key_objAssign_le_one _ _ _ hdup)

set_option maxRecDepth 16384 in
/-- C10 witness: two distinct URLs agreeing on their first 38 bytes collide,
and a double save at one key keeps a single record holding the second data. -/
theorem C10_company_key_witness :
    companyKey u3c = companyKey u4c ∧
    objGet (SearchApi.saveCompany (SearchApi.saveCompany st0 (companyKey u3c)
        { url := u3c } 1) (companyKey u3c) { url := u4c } 2).companies (companyKey u3c) =
      some { url := u4c, savedAt := some 2 } :=
  ⟨(C10_company_key st0 u3c u3c u4c { url := u3c } { url := u4c } 1 2 (by decide)
      (by decide)).1,
   (C10_company_key st0 u3c u3c u4c { url := u3c } { url := u4c } 1 2 (by decide)
      (by decide)).2.1⟩
